import Mathlib

/-!
Verification development for the LexiMarket matchmaking / game-room engine
(`server.js`). The definitions below are a shallow embedding of the game-core
functions of the source: pure functions become Lean functions, the mutable
server maps become an explicit `ServerState`, socket handlers become state
transformers returning the next state together with the list of emitted
events, JavaScript `null`/`undefined` dereferences are modelled by `Option`
(a handler that would throw a `TypeError` returns `none`), and the wall
clock (`Date.now()`) is passed in as an explicit `timeUsed` argument.
JavaScript numbers are modelled by `Int`/`Rat`; `NaN` (which arises from an
out-of-table difficulty multiplier) is modelled by `none : Option Int`.
-/

/-- The space character, i.e. the argument of `includes` in
`cleanClue.includes(' ')` in the source. -/
def spaceChar : Char := Char.ofNat 32

/-- `s.contains ch` on the underlying character list; models the JS
single-character `String.prototype.includes`. -/
def strHasChar (s : String) (ch : Char) : Bool :=
  s.data.contains ch

/-- JS `toLowerCase`, computed on the character list (ASCII case folding,
like `Char.toLower`; accented letters are untouched, a divergence from JS
that is irrelevant for the ASCII room data used here). -/
def jsToLower (s : String) : String :=
  ⟨s.data.map Char.toLower⟩

/-- JS `trim`: strip leading and trailing whitespace. -/
def jsTrim (s : String) : String :=
  ⟨(((s.data.dropWhile Char.isWhitespace).reverse).dropWhile
      Char.isWhitespace).reverse⟩

/-- JS `substring(0, n)`. -/
def strTake (s : String) (n : Nat) : String :=
  ⟨s.data.take n⟩

/-- `beginsWithChars hay needle` is true when `needle` is an initial segment
of `hay` (character lists). -/
def beginsWithChars : List Char → List Char → Bool
  | _, [] => true
  | [], _ :: _ => false
  | a :: as, b :: bs => a == b && beginsWithChars as bs

/-- `hasSubChars hay needle`: `needle` occurs contiguously inside `hay`. -/
def hasSubChars : List Char → List Char → Bool
  | [], needle => needle.isEmpty
  | hay@(_ :: rest), needle => beginsWithChars hay needle || hasSubChars rest needle

/-- Models JS `hay.includes(needle)` (substring containment). -/
def jsIncludes (hay needle : String) : Bool :=
  hasSubChars hay.data needle.data

/-- The fixed banned-English-word set `commonEnglishWords` from the source. -/
def commonEnglishWords : List String :=
  ["the", "be", "to", "of", "and", "a", "in", "that", "have", "i", "it", "for",
   "not", "on", "with", "market", "marketing", "business", "product", "price",
   "sell", "buy", "customer", "brand"]

/-- A vocabulary entry (element of `marketingVocabulary[tier]`). -/
structure WordEntry where
  word : String
  definition : String
  botClues : List String
  forbiddenWords : List String
  difficulty : String
deriving DecidableEq

/-- A connected player, as stored in `connectedUsers`. -/
structure Player where
  socketId : String
  pseudo : String
deriving DecidableEq

/-- A game room, as stored in `activeRooms`. The JS object is duck-typed
(training rooms have `player`/`botClueIndex`/`difficulty`, multiplayer rooms
have `players`/`currentGuesser`); absent JS fields are modelled by the
neutral values `none` / `[]` / `0` / `""`. `timerArmed` models whether the
`setInterval` handle stored in `room.timer` is currently active
(`clearInterval` sets it to `false`). `startTime` is not stored; the elapsed
`timeUsed` is passed to the round-ending functions explicitly.  `maxWords`
is a client-influenced JS number (the training handler stores
`data.maxWords || 10` verbatim), so it is modelled as an exact rational:
negative or fractional client values flow in unchanged. -/
structure Room where
  type : String
  players : List Player
  player : Option Player
  gameState : String
  difficulty : String
  currentWord : Option WordEntry
  botClueIndex : Nat
  clues : List String
  turnsLeft : Int
  timeLeft : Int
  currentGuesser : Nat
  scores : List (String × Option Int)
  wordsPlayed : Nat
  maxWords : ℚ
  timerArmed : Bool
deriving DecidableEq

/-- Result of `validateClue`: `{ valid: true }` or `{ valid: false, reason }`. -/
structure ClueResult where
  valid : Bool
  reason : Option String
deriving DecidableEq

/-- The forbidden-word list reached by the optional chain
`room?.currentWord?.forbiddenWords` (undefined is modelled as `[]`, which
makes both the `length > 0` test and the membership test false, exactly as
the JS guard does). -/
def forbiddenOf (room : Option Room) : List String :=
  match room with
  | none => []
  | some r =>
    match r.currentWord with
    | none => []
    | some w => w.forbiddenWords

/-- Shallow embedding of `validateClue(clue, targetWord, room)` from the
source, parameterised by the loaded dictionary `frenchDictionary`. -/
def validateClue (frenchDictionary : List String) (clue targetWord : String)
    (room : Option Room) : ClueResult :=
  let cleanClue := jsTrim (jsToLower clue)
  let cleanTarget := jsToLower targetWord
  if cleanClue.length < 2 then ⟨false, some "Au moins 2 caractères"⟩
  else if strHasChar cleanClue spaceChar then ⟨false, some "Un seul mot"⟩
  else if cleanClue = cleanTarget then ⟨false, some "Pas le mot à deviner"⟩
  else if 3 ≤ cleanClue.length ∧ 3 ≤ cleanTarget.length ∧
      strTake cleanClue 3 = strTake cleanTarget 3 then
    ⟨false, some "Pas les 3 mêmes premières lettres"⟩
  else if jsIncludes cleanTarget cleanClue || jsIncludes cleanClue cleanTarget then
    ⟨false, some "Trop proche"⟩
  else if commonEnglishWords.contains cleanClue then ⟨false, some "Anglais interdit"⟩
  else if ¬ frenchDictionary.contains cleanClue then
    ⟨false, some "Pas dans le dictionnaire"⟩
  else if 0 < (forbiddenOf room).length ∧
      ((forbiddenOf room).map jsToLower).contains cleanClue then
    ⟨false, some "Mot interdit"⟩
  else ⟨true, none⟩

/-- The ordered check list exactly as the specification words it; check (2)
is "normalized clue contains whitespace" (any whitespace character). -/
def clueCheckList (frenchDictionary : List String) (clue targetWord : String)
    (room : Option Room) : List (Bool × String) :=
  let c := jsTrim (jsToLower clue)
  let t := jsToLower targetWord
  [ (decide (c.length < 2), "Au moins 2 caractères"),
    (c.data.any Char.isWhitespace, "Un seul mot"),
    (decide (c = t), "Pas le mot à deviner"),
    (decide (3 ≤ c.length) && decide (3 ≤ t.length) &&
       decide (strTake c 3 = strTake t 3),
      "Pas les 3 mêmes premières lettres"),
    (jsIncludes t c || jsIncludes c t, "Trop proche"),
    (commonEnglishWords.contains c, "Anglais interdit"),
    (!(frenchDictionary.contains c), "Pas dans le dictionnaire"),
    (((forbiddenOf room).map jsToLower).contains c, "Mot interdit") ]

/-- Same check list but with check (2) testing only for a literal space
character, as the source does. -/
def clueCheckListSpace (frenchDictionary : List String) (clue targetWord : String)
    (room : Option Room) : List (Bool × String) :=
  let c := jsTrim (jsToLower clue)
  let t := jsToLower targetWord
  [ (decide (c.length < 2), "Au moins 2 caractères"),
    (strHasChar c spaceChar, "Un seul mot"),
    (decide (c = t), "Pas le mot à deviner"),
    (decide (3 ≤ c.length) && decide (3 ≤ t.length) &&
       decide (strTake c 3 = strTake t 3),
      "Pas les 3 mêmes premières lettres"),
    (jsIncludes t c || jsIncludes c t, "Trop proche"),
    (commonEnglishWords.contains c, "Anglais interdit"),
    (!(frenchDictionary.contains c), "Pas dans le dictionnaire"),
    (((forbiddenOf room).map jsToLower).contains c, "Mot interdit") ]

/-- First-failing-check-wins semantics over an ordered check list. -/
def firstFailing (checks : List (Bool × String)) : ClueResult :=
  match checks.find? (fun ch => ch.1) with
  | some ch => ⟨false, some ch.2⟩
  | none => ⟨true, none⟩

/-- Modelled from the spec: the validator as claim C1 words it (ordered
checks, first failing check supplies the reason, check (2) is generic
whitespace). -/
def specValidateClue (frenchDictionary : List String) (clue targetWord : String)
    (room : Option Room) : ClueResult :=
  firstFailing (clueCheckList frenchDictionary clue targetWord room)

/-- The validator as an ordered check list whose check (2) is the literal
space test of the source. -/
def specValidateClueSpace (frenchDictionary : List String) (clue targetWord : String)
    (room : Option Room) : ClueResult :=
  firstFailing (clueCheckListSpace frenchDictionary clue targetWord room)

/-- JS `Math.round` on a rational: half-up rounding, `⌊q + 1/2⌋`.  Used in
specification-level statements. -/
def jsRound (q : ℚ) : Int :=
  ⌊q + 1 / 2⌋

/-- The difficulty multiplier table `diffMultiplier = { easy: 1, medium: 1.5,
hard: 2 }`; a key outside the table yields JS `undefined` (modelled `none`),
which propagates to `NaN`. -/
def diffMultiplier (difficulty : String) : Option ℚ :=
  if difficulty = "easy" then some 1
  else if difficulty = "medium" then some (3 / 2)
  else if difficulty = "hard" then some 2
  else none

/-- The same multiplier table with every entry scaled by two, so that the
whole score computation lives in `Int` (1.5 is the only non-integer JS
number in the score path).  `calculateScore_matches_formula` proves this
encoding agrees with the rational formula. -/
def diffMultiplierX2 (difficulty : String) : Option Int :=
  if difficulty = "easy" then some 2
  else if difficulty = "medium" then some 3
  else if difficulty = "hard" then some 4
  else none

/-- `Math.round (h / 2)` for an integer `h`: half-up rounding is
`⌊(h + 1) / 2⌋`, i.e. floor division. -/
def jsRoundHalf (h : Int) : Int :=
  (h + 1).fdiv 2

/-- Shallow embedding of `calculateScore(timeUsed, cluesUsed, difficulty)`,
with the multiplier carried in doubled form (`m2 = 2 * multiplier`):
`100 * (m - 1) = 100 * (m2 - 2) / 2` and the final sum `s` equals `2*s/2`.
`none` models the `NaN` produced when `difficulty` is not in the table. -/
def calculateScore (timeUsed : Int) (cluesUsed : Nat) (difficulty : String) :
    Option Int :=
  let baseScore : Int := 100
  let timeBonus : Int := max 0 (60 - timeUsed) * 2
  let clueBonus : Int := (4 - (cluesUsed : Int)) * 25
  match diffMultiplierX2 difficulty with
  | none => none
  | some m2 =>
    let diffBonus : Int := jsRoundHalf (baseScore * (m2 - 2))
    some (jsRoundHalf (2 * (baseScore + timeBonus + clueBonus + diffBonus)))

/-- Events emitted through socket.io, abstracted to their payload-relevant
parts. `roundEnd` carries `success`, `message`, `pointsEarned` (an `Option`
because the points can be `NaN`) and `isLastWord`. -/
inductive Ev where
  | matchmakingJoined (queuePosition : Nat)
  | queueUpdate (playersInQueue : Nat)
  | matchmakingLeft
  | privateRoomCreated (code : String)
  | waitingForOpponent (code : String)
  | matchFound (code : String) (opponent : String)
  | roomError (message : String)
  | trainingStart (code : String)
  | gameStart
  | timerUpdate (timeLeft : Int)
  | clueGiven (clue : String) (turnsLeft : Int)
  | clueError (reason : String)
  | guessError (message : String)
  | guessCorrect (guess : String)
  | guessWrongBroadcast (guess : String)
  | guessWrong
  | roundEnd (success : Bool) (message : String) (points : Option Int) (isLast : Bool)
  | nextRound (roundNumber : Nat)
  | gameEnded
deriving DecidableEq

/-- A private-room ticket, as stored in `privateRooms` before promotion. -/
structure PrivateTicket where
  host : Player
  players : List Player
  status : String
  createdAt : Int
deriving DecidableEq

/-- The mutable top-level maps of the server.  JS `Map`s are modelled as
association lists; `Map.set` replaces in place or appends (`assocSet`). -/
structure ServerState where
  connectedUsers : List (String × Player)
  matchmakingQueue : List Player
  activeRooms : List (String × Room)
  privateRooms : List (String × PrivateTicket)
deriving DecidableEq

/-- `Map.set` on an association list: update in place, else append. -/
def assocSet {β : Type} : List (String × β) → String → β → List (String × β)
  | [], k, v => [(k, v)]
  | (a, b) :: rest, k, v =>
    if a = k then (k, v) :: rest else (a, b) :: assocSet rest k v

/-- `Map.get` on an association list. -/
def assocGet {β : Type} (l : List (String × β)) (k : String) : Option β :=
  (l.find? (fun p => p.1 == k)).map (fun p => p.2)

/-- `connectedUsers.get(socket.id)`. -/
def lookupUser (s : ServerState) (socketId : String) : Option Player :=
  assocGet s.connectedUsers socketId

/-- `activeRooms.get(code)`. -/
def lookupRoom (s : ServerState) (code : String) : Option Room :=
  assocGet s.activeRooms code

/-- Current value of a score ledger entry. -/
def scoreOf (r : Room) (name : String) : Option (Option Int) :=
  (r.scores.find? (fun p => p.1 == name)).map (fun p => p.2)

/-- Addition on JS numbers that may be `NaN` (`none` absorbs). -/
def optAdd : Option Int → Option Int → Option Int
  | some a, some b => some (a + b)
  | _, _ => none

/-- `room.scores[name] += points`: update the entry when the key exists; a
missing key yields `undefined + points = NaN`, i.e. a fresh `none` entry. -/
def bumpScore : List (String × Option Int) → String → Option Int →
    List (String × Option Int)
  | [], name, _ => [(name, none)]
  | (k, v) :: rest, name, pts =>
    if k = name then (k, optAdd v pts) :: rest else (k, v) :: bumpScore rest name pts

/-- Shallow embedding of `generateRoomCode()`.  The draw
`Math.random().toString(36)` is passed in as the string `randStr` (`"0"`, or
`"0."` followed by the base-36 fraction digits); the function takes
`substr(2, 6)` of it and uppercases. -/
def generateRoomCode (randStr : String) : String :=
  ⟨((randStr.data.drop 2).take 6).map Char.toUpper⟩

/-- The six vocabulary tier names drawn from in `getRandomWord`. -/
def tierNames : List String :=
  ["level1", "level2", "level3", "level4", "level5", "level6"]

/-- Shallow embedding of `getRandomWord(difficulty)`.  The vocabulary is the
function `vocab`; the random draws `Math.floor(Math.random() * n)` are
modelled by `randTier % 6` and `randIdx % words.length` so that any naturals
denote a valid draw.  The spread `{ ...entry, difficulty: target }`
overwrites the entry's difficulty with the tier actually drawn. -/
def getRandomWord (vocab : String → List WordEntry) (difficulty : Option String)
    (randTier randIdx : Nat) : Option WordEntry :=
  let target :=
    match difficulty with
    | some d => d
    | none => tierNames.getD (randTier % 6) "level1"
  let words := vocab target
  if words.length = 0 then none
  else some { words.getD (randIdx % words.length) ⟨"", "", [], [], ""⟩ with
              difficulty := target }

/-- `data.maxWords || 10` on a client-supplied JS number: `none` models the
falsy non-numbers (absent, `undefined`, `null`) as well as `NaN`; the falsy
number `0` gives the default; every other number — including negative and
fractional ones — is truthy and kept verbatim. -/
def jsOrNum (v : Option ℚ) (d : ℚ) : ℚ :=
  match v with
  | none => d
  | some q => if q = 0 then d else q

/-- Shallow embedding of `createMultiplayerRoom(code, players, type)` (the
room object it stores; the caller performs `activeRooms.set`).  The score
ledger is keyed by `players[0].pseudo` and `players[1].pseudo`. -/
def createMultiplayerRoom (players : List Player) (type : String) : Room :=
  { type := type
    players := players
    player := none
    gameState := "starting"
    difficulty := ""
    currentWord := none
    botClueIndex := 0
    clues := []
    turnsLeft := 4
    timeLeft := 60
    currentGuesser := 1
    scores := [((players.getD 0 ⟨"", ""⟩).pseudo, some 0),
               ((players.getD 1 ⟨"", ""⟩).pseudo, some 0)]
    wordsPlayed := 1
    maxWords := 4
    timerArmed := false }

/-- The training-room object built by the `start_training` handler. -/
def trainingRoom (user : Player) (diff : String) (maxWords : Option ℚ)
    (word : Option WordEntry) : Room :=
  { type := "training"
    players := []
    player := some user
    gameState := "playing"
    difficulty := diff
    currentWord := word
    botClueIndex := 0
    clues := []
    turnsLeft := 4
    timeLeft := 60
    currentGuesser := 0
    scores := [(user.pseudo, some 0), ("Bot", some 0)]
    wordsPlayed := 1
    maxWords := jsOrNum maxWords 10
    timerArmed := true }

/-- The `start_training` socket handler.  `difficulty`/`maxWords` are the
client payload (`none` models an absent or falsy field), `randIdx` the word
draw, `randCode` the room-code draw.  The handler creates the room with the
timer armed; the initial bot clue is a deferred callback, modelled as a
separate later `giveBotClue` step. -/
def startTraining (vocab : String → List WordEntry) (s : ServerState)
    (socketId : String) (difficulty : Option String) (maxWords : Option ℚ)
    (randIdx : Nat) (randCode : String) : ServerState × List Ev :=
  match lookupUser s socketId with
  | none => (s, [])
  | some user =>
    let code := "BOT_" ++ generateRoomCode randCode
    let diff := difficulty.getD "easy"
    let room := trainingRoom user diff maxWords
      (getRandomWord vocab (some diff) 0 randIdx)
    ({ s with activeRooms := assocSet s.activeRooms code room },
     [Ev.trainingStart code])

/-- The `join_matchmaking` handler: pushes the logged-in user onto the queue
unconditionally.  The pairing attempt is a deferred (≈1 s) callback,
modelled as the separate step `pairingAttempt`. -/
def joinMatchmaking (s : ServerState) (socketId : String) : ServerState × List Ev :=
  match lookupUser s socketId with
  | none => (s, [])
  | some user =>
    let q := s.matchmakingQueue ++ [user]
    ({ s with matchmakingQueue := q },
     [Ev.matchmakingJoined q.length, Ev.queueUpdate q.length])

/-- The deferred pairing callback inside `join_matchmaking`: if at least two
players are queued, shift the first two and create a matchmaking room. -/
def pairingAttempt (s : ServerState) (randCode : String) : ServerState × List Ev :=
  match s.matchmakingQueue with
  | p1 :: p2 :: rest =>
    let code := generateRoomCode randCode
    ({ s with matchmakingQueue := rest
              activeRooms := assocSet s.activeRooms code
                (createMultiplayerRoom [p1, p2] "matchmaking") },
     [Ev.matchFound code p2.pseudo, Ev.matchFound code p1.pseudo])
  | _ => (s, [])

/-- The `leave_matchmaking` handler: filters every queue entry with the
leaving socket id. -/
def leaveMatchmaking (s : ServerState) (socketId : String) : ServerState × List Ev :=
  match lookupUser s socketId with
  | none => (s, [])
  | some _ =>
    ({ s with matchmakingQueue :=
        s.matchmakingQueue.filter (fun p => p.socketId != socketId) },
     [Ev.matchmakingLeft])

/-- The `create_private_room` handler: stores a fresh ticket under the
generated code with no collision check (`Map.set` replaces an existing
room). `now` models `Date.now()`. -/
def createPrivateRoom (s : ServerState) (socketId : String) (randCode : String)
    (now : Int) : ServerState × List Ev :=
  match lookupUser s socketId with
  | none => (s, [])
  | some user =>
    let code := generateRoomCode randCode
    ({ s with privateRooms :=
        assocSet s.privateRooms code ⟨user, [user], "waiting", now⟩ },
     [Ev.privateRoomCreated code])

/-- The `disconnect` handler: deletes the connection from `connectedUsers`
and filters the matchmaking queue.  Nothing else is touched. -/
def onDisconnect (s : ServerState) (socketId : String) : ServerState :=
  { s with connectedUsers := s.connectedUsers.filter (fun p => p.1 != socketId)
           matchmakingQueue := s.matchmakingQueue.filter (fun p => p.socketId != socketId) }

/-- Synchronous part of `endRound(code, success, message)` (multiplayer):
clear the timer, compute points, add them to every participant's ledger on
success, and emit `round_end`.  Returns `none` when `room.currentWord` is
null (the JS code would throw reading `.word`/`.difficulty`).  The deferred
5-second continuation (game deletion or `nextRoundReset`) is modelled as a
separate later step. -/
def endRoundSync (r : Room) (success : Bool) (message : String)
    (timeUsed : Int) : Option (Room × List Ev) :=
  match r.currentWord with
  | none => none
  | some w =>
    let points : Option Int :=
      if success then calculateScore timeUsed r.clues.length w.difficulty
      else some 0
    let r2 : Room :=
      if success then
        { r with timerArmed := false
                 scores :=
            r.players.foldl (fun sc p => bumpScore sc p.pseudo points) r.scores }
      else { r with timerArmed := false }
    some (r2, [Ev.roundEnd success message points
                (decide (r2.maxWords ≤ (r2.wordsPlayed : ℚ)))])

/-- Synchronous part of `endTrainingRound(code, success, message)`: same as
`endRoundSync` but only the human player's ledger entry is bumped.  Returns
`none` when `room.currentWord` (or `room.player`) is null. -/
def endTrainingRoundSync (r : Room) (success : Bool) (message : String)
    (timeUsed : Int) : Option (Room × List Ev) :=
  match r.currentWord, r.player with
  | none, _ => none
  | _, none => none
  | some w, some pl =>
    let points : Option Int :=
      if success then calculateScore timeUsed r.clues.length w.difficulty
      else some 0
    let r2 : Room :=
      if success then
        { r with timerArmed := false
                 scores := bumpScore r.scores pl.pseudo points }
      else { r with timerArmed := false }
    some (r2, [Ev.roundEnd success message points
                (decide (r2.maxWords ≤ (r2.wordsPlayed : ℚ)))])

/-- `room.type === 'training' ? endTrainingRound(...) : endRound(...)`. -/
def endDispatch (r : Room) (success : Bool) (message : String)
    (timeUsed : Int) : Option (Room × List Ev) :=
  if r.type = "training" then endTrainingRoundSync r success message timeUsed
  else endRoundSync r success message timeUsed

/-- The `make_guess` handler, given the room it resolved from `activeRooms`.
A whitespace-containing guess is rejected before `currentWord` is touched;
a correct guess ends the round; a wrong one is broadcast (in training it
also schedules a deferred `giveBotClue`, modelled as a separate step).
`none` models the `TypeError` on `room.currentWord.word` when the current
word is null. -/
def makeGuess (r : Room) (guess : String) (timeUsed : Int) :
    Option (Room × List Ev) :=
  if strHasChar (jsTrim guess) spaceChar then
    some (r, [Ev.guessError "Un seul mot"])
  else
    match r.currentWord with
    | none => none
    | some w =>
      if jsTrim (jsToLower guess) = jsToLower w.word then
        match endDispatch r true "Trouvé !" timeUsed with
        | none => none
        | some (r2, evs) => some (r2, Ev.guessCorrect guess :: evs)
      else
        some (r, [Ev.guessWrongBroadcast guess, Ev.guessWrong])

/-- The `give_clue` handler (multiplayer rooms only; the handler returns
early on training rooms, modelled as a no-op).  On acceptance the raw clue
is appended, `turnsLeft` decrements, and the round ends by clue exhaustion
when it reaches 0. -/
def giveClue (frenchDictionary : List String) (r : Room) (clue : String)
    (timeUsed : Int) : Option (Room × List Ev) :=
  if r.type = "training" then some (r, [])
  else
    match r.currentWord with
    | none => none
    | some w =>
      let val := validateClue frenchDictionary clue w.word (some r)
      if val.valid = false then some (r, [Ev.clueError (val.reason.getD "")])
      else
        let r2 := { r with clues := r.clues ++ [clue], turnsLeft := r.turnsLeft - 1 }
        if r2.turnsLeft ≤ 0 then
          match endRoundSync r2 false "Plus d\x27indices" timeUsed with
          | none => none
          | some (r3, evs) => some (r3, Ev.clueGiven clue r2.turnsLeft :: evs)
        else
          some (r2, [Ev.clueGiven clue r2.turnsLeft])

/-- `giveBotClue(code)` (training rooms only): when the scripted clue list
is exhausted the round ends; otherwise the next bot clue is emitted and
`turnsLeft` decrements — with no check that turns remain.  `none` models
the `TypeError` on `room.currentWord.botClues` when the word is null. -/
def giveBotClue (r : Room) (timeUsed : Int) : Option (Room × List Ev) :=
  if r.type = "training" then
    match r.currentWord with
    | none => none
    | some w =>
      if w.botClues.length ≤ r.botClueIndex then
        endTrainingRoundSync r false "Plus d\x27indices" timeUsed
      else
        let clue := w.botClues.getD r.botClueIndex ""
        let r2 := { r with botClueIndex := r.botClueIndex + 1
                           clues := r.clues ++ [clue]
                           turnsLeft := r.turnsLeft - 1 }
        some (r2, [Ev.clueGiven clue r2.turnsLeft])
  else some (r, [])

/-- One firing of the per-room `setInterval` callback.  A cleared interval
never fires, so a tick on a room whose timer is not armed is modelled as a
no-op.  Otherwise `timeLeft` decrements, `timer_update` is emitted, and at
0 the interval is cleared and the round ends by timeout. -/
def tick (r : Room) (timeUsedAtTimeout : Int) : Option (Room × List Ev) :=
  if r.timerArmed = false then some (r, [])
  else
    let r2 : Room := { r with timeLeft := r.timeLeft - 1 }
    if r2.timeLeft ≤ (0 : Int) then
      let r3 : Room := { r2 with timerArmed := false }
      match endDispatch r3 false "Temps écoulé" timeUsedAtTimeout with
      | none => none
      | some (r4, evs) => some (r4, Ev.timerUpdate r2.timeLeft :: evs)
    else
      some (r2, [Ev.timerUpdate r2.timeLeft])

/-- The deferred (≈5 s) next-round continuation of `endRound` when the word
quota is not exhausted: increments `wordsPlayed`, installs the freshly drawn
word, resets clue/turn/time counters, flips `currentGuesser` between 1 and
2, and re-arms the timer. -/
def nextRoundReset (r : Room) (word : Option WordEntry) : Room × List Ev :=
  let r2 := { r with wordsPlayed := r.wordsPlayed + 1
                     currentWord := word
                     clues := ([] : List String)
                     turnsLeft := 4
                     timeLeft := 60
                     currentGuesser := if r.currentGuesser = 1 then 2 else 1
                     timerArmed := true }
  (r2, [Ev.nextRound r2.wordsPlayed])

/-- The deferred next-round continuation of `endTrainingRound`: same resets
plus `botClueIndex := 0`; no role flip. -/
def trainingNextRound (r : Room) (word : Option WordEntry) : Room × List Ev :=
  let r2 := { r with wordsPlayed := r.wordsPlayed + 1
                     currentWord := word
                     botClueIndex := 0
                     clues := ([] : List String)
                     turnsLeft := 4
                     timeLeft := 60
                     timerArmed := true }
  (r2, [Ev.nextRound r2.wordsPlayed])

/-- The `join_room` starting branch: move the room from `starting` to
`playing`, install the drawn word, and arm the timer. -/
def startRoom (r : Room) (word : Option WordEntry) : Room × List Ev :=
  ({ r with gameState := "playing", currentWord := word, timerArmed := true },
   [Ev.gameStart])

/-- The room invariant stated in the data-model section of the
specification (the parts expressible on a single room). -/
abbrev RoomInv (r : Room) : Prop :=
  0 ≤ r.turnsLeft ∧ 0 ≤ r.timeLeft ∧ (r.wordsPlayed : ℚ) ≤ r.maxWords

/-- `RoomInv` strengthened with the auxiliary fact that an armed timer still
has at least one second to count; this is what every armed reachable room
satisfies and what the tick step needs. -/
abbrev RoomInvT (r : Room) : Prop :=
  RoomInv r ∧ (r.timerArmed = true → 1 ≤ r.timeLeft)

/-- A one-word, one-tier vocabulary used for the concrete traces: the tier
`easy` holds one word with five scripted bot clues. -/
def trainVocab : String → List WordEntry := fun d =>
  if d = "easy" then [⟨"CIBLE", "la cible", ["b1", "b2", "b3", "b4", "b5"], [], ""⟩]
  else []

/-- A server state with a single logged-in user Alice on socket `s1`. -/
def baseState : ServerState :=
  ⟨[("s1", ⟨"s1", "Alice"⟩)], [], [], []⟩

/-- Alice starts a training game on tier `easy` (room-code draw
`"0.abcdef01"`, i.e. room `BOT_ABCDEF`). -/
def trainStart : ServerState × List Ev :=
  startTraining trainVocab baseState "s1" (some "easy") none 0 "0.abcdef01"

/-- The training room created by `trainStart` (checked against
`lookupRoom` in the theorems below). -/
def trainRoom0 : Room :=
  trainingRoom ⟨"s1", "Alice"⟩ "easy" none
    (some ⟨"CIBLE", "la cible", ["b1", "b2", "b3", "b4", "b5"], [], "easy"⟩)

/-- `trainRoom0` right after its first round was ended by the correct guess
`"cible"` at `timeUsed = 1`: timer cleared, 318 points credited. -/
def trainRoomEnded : Room :=
  { trainRoom0 with timerArmed := false
                    scores := [("Alice", some 318), ("Bot", some 0)] }

/-- The training room created when the client sends the truthy negative
quota `maxWords = -5`, which `|| 10` keeps. -/
def trainRoomNeg : Room :=
  trainingRoom ⟨"s1", "Alice"⟩ "easy" (some (-5))
    (some ⟨"CIBLE", "la cible", ["b1", "b2", "b3", "b4", "b5"], [], "easy"⟩)

/-- The training room created when the client sends the truthy fractional
quota `maxWords = 2.5`, which `|| 10` keeps. -/
def trainRoomHalf : Room :=
  trainingRoom ⟨"s1", "Alice"⟩ "easy" (some (mkRat 5 2))
    (some ⟨"CIBLE", "la cible", ["b1", "b2", "b3", "b4", "b5"], [], "easy"⟩)

/-- One bot-clue step of a trace (the deferred `giveBotClue` callback). -/
def botStep (r : Room) : Room :=
  match giveBotClue r 0 with
  | some p => p.1
  | none => r

/-- One wrong-guess step of a trace (`make_guess` with the wrong word
`"zz"`; in a training room this is what schedules the next bot clue). -/
def wrongStep (r : Room) : Room :=
  match makeGuess r "zz" 0 with
  | some p => p.1
  | none => r

/-- The five bot clues of `trainRoom0`'s word, interleaved with the wrong
guesses that trigger them, starting from the initial deferred bot clue. -/
def fiveBotClues (r : Room) : Room :=
  botStep (wrongStep (botStep (wrongStep (botStep (wrongStep
    (botStep (wrongStep (botStep r))))))))

/-- The base-36 digit characters `Math.random().toString(36)` can produce
after the `"0."` head. -/
def base36Chars : List Char := "0123456789abcdefghijklmnopqrstuvwxyz".data

/-- Uppercase alphanumeric characters (the advertised room-code alphabet). -/
def upper36Chars : List Char := "0123456789ABCDEFGHIJKLMNOPQRSTUVWXYZ".data

/-- A multiplayer room holding the word `MAISON`, used as a concrete
validator context. -/
def roomMaison : Room :=
  { createMultiplayerRoom [⟨"s1", "Alice"⟩, ⟨"s2", "Bob"⟩] "matchmaking" with
    gameState := "playing"
    currentWord := some ⟨"MAISON", "une maison", [], [], "level1"⟩
    timerArmed := true }

theorem firstFailing_nil : firstFailing [] = ⟨true, none⟩ := rfl

theorem firstFailing_cons_true {b : Bool} {s : String} {rest : List (Bool × String)}
    (h : b = true) : firstFailing ((b, s) :: rest) = ⟨false, some s⟩ := by
  subst h; rfl

theorem firstFailing_cons_false {b : Bool} {s : String} {rest : List (Bool × String)}
    (h : b = false) : firstFailing ((b, s) :: rest) = firstFailing rest := by
  subst h; rfl

theorem contains_map_pos_length {l : List String} {f : String → String} {c : String}
    (h : (l.map f).contains c = true) : 0 < l.length := by
  cases l with
  | nil => exact Bool.noConfusion h
  | cons a as => simp

/-- C1 (amended): for every dictionary, clue, target word and room,
`validateClue` agrees with the first-failing-check semantics of the eight
ordered checks of the specification, with check (2) taken as "contains a
space character" (the source tests `includes(' ')`, not arbitrary
whitespace). -/
theorem validateClue_matches_ordered_checks (dict : List String)
    (clue targetWord : String) (room : Option Room) :
    validateClue dict clue targetWord room =
      specValidateClueSpace dict clue targetWord room := by
  simp only [validateClue, specValidateClueSpace, clueCheckListSpace]
  by_cases h1 : (jsTrim (jsToLower clue)).length < 2
  · rw [if_pos h1, firstFailing_cons_true (by simp [h1])]
  rw [if_neg h1, firstFailing_cons_false (by simp [h1])]
  by_cases h2 : strHasChar (jsTrim (jsToLower clue)) spaceChar = true
  · rw [if_pos h2, firstFailing_cons_true h2]
  rw [if_neg h2, firstFailing_cons_false (by simpa using h2)]
  by_cases h3 : jsTrim (jsToLower clue) = jsToLower targetWord
  · rw [if_pos h3, firstFailing_cons_true (by simp [h3])]
  rw [if_neg h3, firstFailing_cons_false (by simp [h3])]
  by_cases h4 : 3 ≤ (jsTrim (jsToLower clue)).length ∧
      3 ≤ (jsToLower targetWord).length ∧
      strTake (jsTrim (jsToLower clue)) 3 = strTake (jsToLower targetWord) 3
  · rw [if_pos h4, firstFailing_cons_true (by simp [h4.1, h4.2.1, h4.2.2])]
  rw [if_neg h4,
    firstFailing_cons_false (by simp; intro hA hB hC; exact h4 ⟨hA, hB, hC⟩)]
  by_cases h5 : (jsIncludes (jsToLower targetWord) (jsTrim (jsToLower clue)) ||
      jsIncludes (jsTrim (jsToLower clue)) (jsToLower targetWord)) = true
  · rw [if_pos h5, firstFailing_cons_true h5]
  rw [if_neg h5, firstFailing_cons_false (by simpa using h5)]
  by_cases h6 : commonEnglishWords.contains (jsTrim (jsToLower clue)) = true
  · rw [if_pos h6, firstFailing_cons_true h6]
  rw [if_neg h6, firstFailing_cons_false (by simpa using h6)]
  by_cases h7 : dict.contains (jsTrim (jsToLower clue)) = true
  · rw [if_neg (not_not_intro h7), firstFailing_cons_false (by rw [h7]; rfl)]
    by_cases h8 : ((forbiddenOf room).map jsToLower).contains
        (jsTrim (jsToLower clue)) = true
    · rw [if_pos ⟨contains_map_pos_length h8, h8⟩, firstFailing_cons_true h8]
    · rw [if_neg (fun hand => h8 hand.2),
        firstFailing_cons_false (by simpa using h8), firstFailing_nil]
  · rw [if_pos (by simpa using h7), firstFailing_cons_true (by simpa using h7)]

/-- C1 (counterexample): the normalized clue with an embedded tab contains
whitespace but no space character: the source falls through check (2) and
rejects for the dictionary instead, so the specified checklist (whose check
(2) is "contains whitespace") disagrees with `validateClue`. -/
theorem validateClue_tab_counterexample :
    validateClue [] "a\tb" "MAISON" (some roomMaison) =
      ⟨false, some "Pas dans le dictionnaire"⟩
    ∧ specValidateClue [] "a\tb" "MAISON" (some roomMaison) =
      ⟨false, some "Un seul mot"⟩
    ∧ validateClue [] "a\tb" "MAISON" (some roomMaison) ≠
      specValidateClue [] "a\tb" "MAISON" (some roomMaison) := by
  refine ⟨by decide, by decide, by decide⟩

theorem endRoundSync_fields {r : Room} {success : Bool} {message : String}
    {t : Int} {r2 : Room} {evs : List Ev}
    (h : endRoundSync r success message t = some (r2, evs)) :
    r2.turnsLeft = r.turnsLeft ∧ r2.timeLeft = r.timeLeft
    ∧ r2.wordsPlayed = r.wordsPlayed ∧ r2.maxWords = r.maxWords
    ∧ r2.currentGuesser = r.currentGuesser ∧ r2.timerArmed = false := by
  unfold endRoundSync at h
  split at h
  · exact Option.noConfusion h
  · simp only [Option.some.injEq, Prod.mk.injEq] at h
    obtain ⟨hr, -⟩ := h
    subst hr
    cases success <;> simp

theorem endTrainingRoundSync_fields {r : Room} {success : Bool}
    {message : String} {t : Int} {r2 : Room} {evs : List Ev}
    (h : endTrainingRoundSync r success message t = some (r2, evs)) :
    r2.turnsLeft = r.turnsLeft ∧ r2.timeLeft = r.timeLeft
    ∧ r2.wordsPlayed = r.wordsPlayed ∧ r2.maxWords = r.maxWords
    ∧ r2.currentGuesser = r.currentGuesser ∧ r2.timerArmed = false := by
  unfold endTrainingRoundSync at h
  split at h
  · exact Option.noConfusion h
  · exact Option.noConfusion h
  · simp only [Option.some.injEq, Prod.mk.injEq] at h
    obtain ⟨hr, -⟩ := h
    subst hr
    cases success <;> simp

theorem endDispatch_fields {r : Room} {success : Bool} {message : String}
    {t : Int} {r2 : Room} {evs : List Ev}
    (h : endDispatch r success message t = some (r2, evs)) :
    r2.turnsLeft = r.turnsLeft ∧ r2.timeLeft = r.timeLeft
    ∧ r2.wordsPlayed = r.wordsPlayed ∧ r2.maxWords = r.maxWords
    ∧ r2.currentGuesser = r.currentGuesser ∧ r2.timerArmed = false := by
  unfold endDispatch at h
  split_ifs at h
  · exact endTrainingRoundSync_fields h
  · exact endRoundSync_fields h

/-- C2 (amended): of the three round-end causes, only the timer is actually
made exclusive: ending a round (multiplayer or training) clears the
interval, and a tick of a cleared interval is a no-op, so a timeout can no
longer fire on an ended round.  Guesses and clues that arrive after the
round has ended and before the deferred reset are, however, processed
against the still-registered room and are not no-ops (see the
counterexample, which re-awards points and re-emits `round_end`). -/
theorem round_end_timer_exclusion :
    (∀ r t, r.timerArmed = false → tick r t = some (r, []))
    ∧ (∀ r success message t r2 evs,
        endRoundSync r success message t = some (r2, evs) → r2.timerArmed = false)
    ∧ (∀ r success message t r2 evs,
        endTrainingRoundSync r success message t = some (r2, evs) →
          r2.timerArmed = false) := by
  refine ⟨?_, ?_, ?_⟩
  · intro r t h
    simp [tick, h]
  · intro r success message t r2 evs h
    exact (endRoundSync_fields h).2.2.2.2.2
  · intro r success message t r2 evs h
    exact (endTrainingRoundSync_fields h).2.2.2.2.2

/-- C2 (witness): the timer-exclusion theorem applied to the concrete ended
training room. -/
theorem round_end_timer_exclusion_witness :
    tick trainRoomEnded 60 = some (trainRoomEnded, [])
    ∧ trainRoomEnded.timerArmed = false :=
  ⟨round_end_timer_exclusion.1 trainRoomEnded 60 rfl,
   round_end_timer_exclusion.2.2 trainRoom0 true "Trouvé !" 1 trainRoomEnded
     [Ev.roundEnd true "Trouvé !" (some 318) false] rfl⟩

/-- C2 (counterexample): after Alice's correct guess at second 1 ends the
first round of `trainRoom0` (round_end emitted, 318 points credited, timer
cleared), a second correct guess arriving at second 2 — during the
5-second grace window, while the room is still registered — is processed
again: it emits a second `round_end` and credits another 316 points,
refuting the claim that actions on an already-ended round are no-ops. -/
theorem guess_after_round_end_counterexample :
    lookupRoom trainStart.1 "BOT_ABCDEF" = some trainRoom0
    ∧ makeGuess trainRoom0 "cible" 1 =
        some (trainRoomEnded,
          [Ev.guessCorrect "cible", Ev.roundEnd true "Trouvé !" (some 318) false])
    ∧ makeGuess trainRoomEnded "cible" 2 =
        some ({ trainRoomEnded with scores := [("Alice", some 634), ("Bot", some 0)] },
          [Ev.guessCorrect "cible", Ev.roundEnd true "Trouvé !" (some 316) false])
    ∧ scoreOf trainRoomEnded "Alice" = some (some 318)
    ∧ scoreOf { trainRoomEnded with
        scores := [("Alice", some 634), ("Bot", some 0)] } "Alice"
      = some (some 634) := by
  refine ⟨by decide, by decide, by decide, by decide, by decide⟩

/-- C3 (counterexample): Alice is the only participant of training room
`BOT_ABCDEF`.  After her socket disconnects, the handler leaves
`activeRooms` untouched: the room is still registered, its timer is still
armed, and the next tick still emits `timer_update` — refuting the claimed
room eviction and timer cancellation. -/
theorem disconnect_keeps_room_counterexample :
    (onDisconnect trainStart.1 "s1").connectedUsers = []
    ∧ (onDisconnect trainStart.1 "s1").activeRooms = trainStart.1.activeRooms
    ∧ lookupRoom (onDisconnect trainStart.1 "s1") "BOT_ABCDEF" = some trainRoom0
    ∧ trainRoom0.timerArmed = true
    ∧ tick trainRoom0 60 =
        some ({ trainRoom0 with timeLeft := 59 }, [Ev.timerUpdate 59]) := by
  refine ⟨by decide, by decide, by decide, by decide, by decide⟩

/-- C3 (amended): the `disconnect` handler evicts the identity from the
session registry and the matchmaking queue only; `activeRooms` and
`privateRooms` are untouched, so a room whose last participant disconnected
keeps running and an armed timer keeps emitting `timer_update` on every
tick. -/
theorem disconnect_removes_queue_only :
    (∀ s sid, (onDisconnect s sid).activeRooms = s.activeRooms
      ∧ (onDisconnect s sid).privateRooms = s.privateRooms
      ∧ (onDisconnect s sid).matchmakingQueue
          = s.matchmakingQueue.filter (fun p => p.socketId != sid)
      ∧ (onDisconnect s sid).connectedUsers
          = s.connectedUsers.filter (fun p => p.1 != sid))
    ∧ (∀ r t, r.timerArmed = true → 2 ≤ r.timeLeft →
        tick r t = some ({ r with timeLeft := r.timeLeft - 1 },
          [Ev.timerUpdate (r.timeLeft - 1)])) := by
  constructor
  · exact fun s sid => ⟨rfl, rfl, rfl, rfl⟩
  · intro r t harm htl
    simp only [tick, harm]
    rw [if_neg (by simp), if_neg (by simp; omega)]

/-- C3 (witness): the tick conclusion of the amended theorem at the
concrete armed room. -/
theorem disconnect_removes_queue_only_witness :
    tick trainRoom0 60 =
      some ({ trainRoom0 with timeLeft := trainRoom0.timeLeft - 1 },
        [Ev.timerUpdate (trainRoom0.timeLeft - 1)]) :=
  disconnect_removes_queue_only.2 trainRoom0 60 rfl (by decide)

/-- C4 (counterexample): Alice joins matchmaking twice without leaving; the
handler appends unconditionally, so she appears twice in the queue,
refuting both the claimed no-op and the at-most-once invariant. -/
theorem double_enqueue_counterexample :
    (joinMatchmaking baseState "s1").1.matchmakingQueue = [⟨"s1", "Alice"⟩]
    ∧ (joinMatchmaking (joinMatchmaking baseState "s1").1 "s1").1.matchmakingQueue
        = [⟨"s1", "Alice"⟩, ⟨"s1", "Alice"⟩]
    ∧ (joinMatchmaking (joinMatchmaking baseState "s1").1
        "s1").1.matchmakingQueue.count ⟨"s1", "Alice"⟩ = 2 := by
  refine ⟨by decide, by decide, by decide⟩

/-- C4 (amended): `join_matchmaking` appends the logged-in player to the
queue unconditionally (no membership check); it is a no-op only when the
socket has no logged-in user. -/
theorem join_matchmaking_appends :
    (∀ s sid u, lookupUser s sid = some u →
      joinMatchmaking s sid =
        ({ s with matchmakingQueue := s.matchmakingQueue ++ [u] },
         [Ev.matchmakingJoined (s.matchmakingQueue ++ [u]).length,
          Ev.queueUpdate (s.matchmakingQueue ++ [u]).length]))
    ∧ (∀ s sid, lookupUser s sid = none → joinMatchmaking s sid = (s, [])) := by
  constructor
  · intro s sid u h
    unfold joinMatchmaking
    rw [h]
  · intro s sid h
    unfold joinMatchmaking
    rw [h]

/-- C4 (witness): the amended append equation at the concrete base state. -/
theorem join_matchmaking_appends_witness :
    joinMatchmaking baseState "s1" =
      ({ baseState with
          matchmakingQueue :=
            baseState.matchmakingQueue ++ [(⟨"s1", "Alice"⟩ : Player)] },
       [Ev.matchmakingJoined
          (baseState.matchmakingQueue ++ [(⟨"s1", "Alice"⟩ : Player)]).length,
        Ev.queueUpdate
          (baseState.matchmakingQueue ++ [(⟨"s1", "Alice"⟩ : Player)]).length]) :=
  join_matchmaking_appends.1 baseState "s1" ⟨"s1", "Alice"⟩ rfl

/-- C5 (counterexample): three reachable violations of the claimed
invariant.  (i) `giveBotClue` decrements `turnsLeft` without checking that
any turns remain: starting from the freshly created training room (which
satisfies the invariant), the initial bot clue followed by four wrong
guesses, each triggering another bot clue, drives `turnsLeft` to `-1`.
(ii) A truthy negative client quota (`maxWords = -5`, kept by `|| 10`)
violates `wordsPlayed ≤ maxWords` at room creation.  (iii) A truthy
fractional quota (`maxWords = 2.5`) satisfies the invariant at creation and
after one reset — both resets pass the `wordsPlayed < maxWords` guard —
yet the second reset reaches `wordsPlayed = 3 > 2.5`. -/
theorem room_invariant_counterexample :
    RoomInv trainRoom0
    ∧ (fiveBotClues trainRoom0).turnsLeft = -1
    ∧ ¬ RoomInv (fiveBotClues trainRoom0)
    ∧ lookupRoom (startTraining trainVocab baseState "s1" (some "easy")
        (some (-5)) 0 "0.abcdef01").1 "BOT_ABCDEF" = some trainRoomNeg
    ∧ ¬ RoomInv trainRoomNeg
    ∧ lookupRoom (startTraining trainVocab baseState "s1" (some "easy")
        (some (mkRat 5 2)) 0 "0.abcdef01").1 "BOT_ABCDEF" = some trainRoomHalf
    ∧ RoomInv trainRoomHalf
    ∧ ((trainRoomHalf.wordsPlayed : ℚ) < trainRoomHalf.maxWords)
    ∧ RoomInv (trainingNextRound trainRoomHalf none).1
    ∧ (((trainingNextRound trainRoomHalf none).1.wordsPlayed : ℚ)
        < (trainingNextRound trainRoomHalf none).1.maxWords)
    ∧ ¬ RoomInv (trainingNextRound
        (trainingNextRound trainRoomHalf none).1 none).1 := by
  refine ⟨by decide, by decide, by decide, by decide, by decide, by decide,
    by decide, by decide, by decide, by decide, by decide⟩

theorem roomInvT_endRoundSync {r : Room} {success : Bool} {message : String}
    {t : Int} {r2 : Room} {evs : List Ev} (hInv : RoomInvT r)
    (h : endRoundSync r success message t = some (r2, evs)) : RoomInvT r2 := by
  obtain ⟨h1, h2, h3, h4, -, h6⟩ := endRoundSync_fields h
  obtain ⟨⟨i1, i2, i3⟩, -⟩ := hInv
  exact ⟨⟨by omega, by omega, by rw [h3, h4]; exact i3⟩, by simp [h6]⟩

theorem roomInvT_endTrainingRoundSync {r : Room} {success : Bool}
    {message : String} {t : Int} {r2 : Room} {evs : List Ev} (hInv : RoomInvT r)
    (h : endTrainingRoundSync r success message t = some (r2, evs)) :
    RoomInvT r2 := by
  obtain ⟨h1, h2, h3, h4, -, h6⟩ := endTrainingRoundSync_fields h
  obtain ⟨⟨i1, i2, i3⟩, -⟩ := hInv
  exact ⟨⟨by omega, by omega, by rw [h3, h4]; exact i3⟩, by simp [h6]⟩

theorem roomInvT_endDispatch {r : Room} {success : Bool} {message : String}
    {t : Int} {r2 : Room} {evs : List Ev} (hInv : RoomInvT r)
    (h : endDispatch r success message t = some (r2, evs)) : RoomInvT r2 := by
  unfold endDispatch at h
  split_ifs at h
  · exact roomInvT_endTrainingRoundSync hInv h
  · exact roomInvT_endRoundSync hInv h

theorem roomInvT_tick {r : Room} {t : Int} {r2 : Room} {evs : List Ev}
    (hInv : RoomInvT r) (h : tick r t = some (r2, evs)) : RoomInvT r2 := by
  simp only [tick] at h
  split_ifs at h with harm hz
  · simp only [Option.some.injEq, Prod.mk.injEq] at h
    obtain ⟨hr, -⟩ := h
    subst hr
    exact hInv
  · have htl : 1 ≤ r.timeLeft :=
      hInv.2 (by revert harm; cases r.timerArmed <;> simp)
    obtain ⟨⟨i1, i2, i3⟩, -⟩ := hInv
    split at h
    · exact Option.noConfusion h
    · rename_i r4 evs4 heq
      simp only [Option.some.injEq, Prod.mk.injEq] at h
      obtain ⟨hr, -⟩ := h
      subst hr
      obtain ⟨f1, f2, f3, f4, -, f6⟩ := endDispatch_fields heq
      have e1 : r4.turnsLeft = r.turnsLeft := by simpa using f1
      have e2 : r4.timeLeft = r.timeLeft - 1 := by simpa using f2
      have e3 : r4.wordsPlayed = r.wordsPlayed := by simpa using f3
      have e4 : r4.maxWords = r.maxWords := by simpa using f4
      exact ⟨⟨by omega, by omega, by rw [e3, e4]; exact i3⟩, by simp [f6]⟩
  · have htl : 1 ≤ r.timeLeft :=
      hInv.2 (by revert harm; cases r.timerArmed <;> simp)
    obtain ⟨⟨i1, i2, i3⟩, -⟩ := hInv
    simp only [Option.some.injEq, Prod.mk.injEq] at h
    obtain ⟨hr, -⟩ := h
    subst hr
    refine ⟨⟨by simpa using i1, by simp; omega, by simpa using i3⟩, ?_⟩
    intro _
    show 1 ≤ r.timeLeft - 1
    omega

theorem roomInvT_giveClue {dict : List String} {r : Room} {clue : String}
    {t : Int} {r2 : Room} {evs : List Ev} (hInv : RoomInvT r)
    (hpos : 0 < r.turnsLeft) (h : giveClue dict r clue t = some (r2, evs)) :
    RoomInvT r2 := by
  obtain ⟨⟨i1, i2, i3⟩, i4⟩ := hInv
  simp only [giveClue] at h
  by_cases htr : r.type = "training"
  · rw [if_pos htr] at h
    simp only [Option.some.injEq, Prod.mk.injEq] at h
    obtain ⟨hr, -⟩ := h
    subst hr
    exact ⟨⟨i1, i2, i3⟩, i4⟩
  rw [if_neg htr] at h
  split at h
  case _ => exact Option.noConfusion h
  case _ w heqw =>
    by_cases hval : (validateClue dict clue w.word (some r)).valid = false
    · rw [if_pos hval] at h
      simp only [Option.some.injEq, Prod.mk.injEq] at h
      obtain ⟨hr, -⟩ := h
      subst hr
      exact ⟨⟨i1, i2, i3⟩, i4⟩
    rw [if_neg hval] at h
    by_cases hz : r.turnsLeft - 1 ≤ 0
    · rw [if_pos hz] at h
      split at h
      · exact Option.noConfusion h
      · rename_i r3 evs3 heq
        simp only [Option.some.injEq, Prod.mk.injEq] at h
        obtain ⟨hr, -⟩ := h
        subst hr
        obtain ⟨f1, f2, f3, f4, -, f6⟩ := endRoundSync_fields heq
        have e1 : r3.turnsLeft = r.turnsLeft - 1 := by simpa using f1
        have e2 : r3.timeLeft = r.timeLeft := by simpa using f2
        have e3 : r3.wordsPlayed = r.wordsPlayed := by simpa using f3
        have e4 : r3.maxWords = r.maxWords := by simpa using f4
        exact ⟨⟨by omega, by omega, by rw [e3, e4]; exact i3⟩, by simp [f6]⟩
    · rw [if_neg hz] at h
      simp only [Option.some.injEq, Prod.mk.injEq] at h
      obtain ⟨hr, -⟩ := h
      subst hr
      refine ⟨⟨by simp; omega, by simpa using i2, by simpa using i3⟩, ?_⟩
      intro ha
      simp at ha
      simpa using i4 ha

theorem roomInvT_giveBotClue {r : Room} {t : Int} {r2 : Room} {evs : List Ev}
    (hInv : RoomInvT r) (hpos : 0 < r.turnsLeft)
    (h : giveBotClue r t = some (r2, evs)) : RoomInvT r2 := by
  obtain ⟨⟨i1, i2, i3⟩, i4⟩ := hInv
  simp only [giveBotClue] at h
  by_cases htr : r.type = "training"
  · rw [if_pos htr] at h
    split at h
    case _ => exact Option.noConfusion h
    case _ w heqw =>
      by_cases hex : w.botClues.length ≤ r.botClueIndex
      · rw [if_pos hex] at h
        exact roomInvT_endTrainingRoundSync ⟨⟨i1, i2, i3⟩, i4⟩ h
      · rw [if_neg hex] at h
        simp only [Option.some.injEq, Prod.mk.injEq] at h
        obtain ⟨hr, -⟩ := h
        subst hr
        refine ⟨⟨by simp; omega, by simpa using i2, by simpa using i3⟩, ?_⟩
        intro ha
        simp at ha
        simpa using i4 ha
  · rw [if_neg htr] at h
    simp only [Option.some.injEq, Prod.mk.injEq] at h
    obtain ⟨hr, -⟩ := h
    subst hr
    exact ⟨⟨i1, i2, i3⟩, i4⟩

/-- C5 (amended): the invariant `turnsLeft ≥ 0 ∧ timeLeft ≥ 0 ∧ wordsPlayed
≤ maxWords` (strengthened with "an armed timer has a second left") holds at
multiplayer room creation and is preserved by the start transition, timer
ticks, round ends, next-round resets performed while `wordsPlayed + 1 ≤
maxWords` still holds, and clue acceptance — human or bot — performed
while `turnsLeft > 0`.  None of the guards can be dropped: training-room
creation establishes the invariant only when the effective client quota
`data.maxWords || 10` is at least 1 (a truthy negative quota violates it
immediately); the source's own reset guard `wordsPlayed < maxWords` is too
weak for fractional quotas; and `giveBotClue` checks nothing, driving
`turnsLeft` to `-1` — see the counterexample for all three. -/
theorem room_invariant_preservation :
    (∀ players ty, RoomInvT (createMultiplayerRoom players ty))
    ∧ (∀ user diff mw w, (1 : ℚ) ≤ jsOrNum mw 10 →
        RoomInvT (trainingRoom user diff mw w))
    ∧ (∀ r w, RoomInvT r → 1 ≤ r.timeLeft → RoomInvT (startRoom r w).1)
    ∧ (∀ r t r2 evs, RoomInvT r → tick r t = some (r2, evs) → RoomInvT r2)
    ∧ (∀ dict r clue t r2 evs, RoomInvT r → 0 < r.turnsLeft →
        giveClue dict r clue t = some (r2, evs) → RoomInvT r2)
    ∧ (∀ r t r2 evs, RoomInvT r → 0 < r.turnsLeft →
        giveBotClue r t = some (r2, evs) → RoomInvT r2)
    ∧ (∀ r success message t r2 evs, RoomInvT r →
        endRoundSync r success message t = some (r2, evs) → RoomInvT r2)
    ∧ (∀ r success message t r2 evs, RoomInvT r →
        endTrainingRoundSync r success message t = some (r2, evs) → RoomInvT r2)
    ∧ (∀ r w, (r.wordsPlayed : ℚ) + 1 ≤ r.maxWords →
        RoomInvT (nextRoundReset r w).1)
    ∧ (∀ r w, (r.wordsPlayed : ℚ) + 1 ≤ r.maxWords →
        RoomInvT (trainingNextRound r w).1) := by
  refine ⟨?_, ?_, ?_, ?_, ?_, ?_, ?_, ?_, ?_, ?_⟩
  · intro players ty
    refine ⟨⟨?_, ?_, ?_⟩, by simp [createMultiplayerRoom]⟩
    · show (0 : Int) ≤ 4
      decide
    · show (0 : Int) ≤ 60
      decide
    · show (((1 : Nat) : ℚ)) ≤ 4
      norm_num
  · intro user diff mw w hq
    refine ⟨⟨?_, ?_, ?_⟩, fun _ => ?_⟩
    · show (0 : Int) ≤ 4
      decide
    · show (0 : Int) ≤ 60
      decide
    · show (((1 : Nat) : ℚ)) ≤ jsOrNum mw 10
      simpa using hq
    · show (1 : Int) ≤ 60
      decide
  · intro r w hInv htl
    obtain ⟨⟨i1, i2, i3⟩, -⟩ := hInv
    exact ⟨⟨by simpa using i1, by simpa using i2, by simpa using i3⟩,
           fun _ => by simpa using htl⟩
  · intro r t r2 evs hInv h
    exact roomInvT_tick hInv h
  · intro dict r clue t r2 evs hInv hpos h
    exact roomInvT_giveClue hInv hpos h
  · intro r t r2 evs hInv hpos h
    exact roomInvT_giveBotClue hInv hpos h
  · intro r success message t r2 evs hInv h
    exact roomInvT_endRoundSync hInv h
  · intro r success message t r2 evs hInv h
    exact roomInvT_endTrainingRoundSync hInv h
  · intro r w hle
    refine ⟨⟨by simp [nextRoundReset], by simp [nextRoundReset], ?_⟩,
            fun _ => by simp [nextRoundReset]⟩
    show (((r.wordsPlayed + 1 : Nat)) : ℚ) ≤ r.maxWords
    push_cast
    linarith
  · intro r w hle
    refine ⟨⟨by simp [trainingNextRound], by simp [trainingNextRound], ?_⟩,
            fun _ => by simp [trainingNextRound]⟩
    show (((r.wordsPlayed + 1 : Nat)) : ℚ) ≤ r.maxWords
    push_cast
    linarith

/-- C5 (witness): the tick clause of the preservation theorem applied to
the concrete training room. -/
theorem room_invariant_preservation_witness :
    RoomInvT ({ trainRoom0 with timeLeft := 59 }) :=
  room_invariant_preservation.2.2.2.1 trainRoom0 60
    ({ trainRoom0 with timeLeft := 59 }) [Ev.timerUpdate 59]
    (by decide) (by decide)

/-- C6 (confirmed): for every difficulty in the multiplier table,
`calculateScore(60, 4, d)` is exactly the rounded `100 * multiplier[d]`
(time bonus and clue bonus both zero): easy 100, medium 150, hard 200; and
`calculateScore(0, 0, "easy") = 100 + 120 + 100 = 320`. -/
theorem calculateScore_table :
    (∀ d m, diffMultiplier d = some m →
      calculateScore 60 4 d = some (jsRound (100 * m)))
    ∧ calculateScore 60 4 "easy" = some 100
    ∧ calculateScore 60 4 "medium" = some 150
    ∧ calculateScore 60 4 "hard" = some 200
    ∧ calculateScore 0 0 "easy" = some 320 := by
  refine ⟨?_, by decide, by decide, by decide, by decide⟩
  intro d m h
  unfold diffMultiplier at h
  split_ifs at h with h1 h2 h3
  · injection h with hm
    subst hm
    subst h1
    have hr : jsRound (100 * 1) = 100 := by norm_num [jsRound]
    rw [hr]
    decide
  · injection h with hm
    subst hm
    subst h2
    have hr : jsRound (100 * (3 / 2)) = 150 := by norm_num [jsRound]
    rw [hr]
    decide
  · injection h with hm
    subst hm
    subst h3
    have hr : jsRound (100 * 2) = 200 := by norm_num [jsRound]
    rw [hr]
    decide

/-- C6 (witness): the table clause applied at the `medium` tier. -/
theorem calculateScore_table_witness :
    calculateScore 60 4 "medium" = some (jsRound (100 * (3 / 2))) :=
  calculateScore_table.1 "medium" (3 / 2) rfl

/-- C7 (confirmed): a two-human room is created with guesser index 1; the
next-round reset flips it to 2, and a second reset flips it back to 1 —
the per-round flip alternates the role and is an involution on the
reachable indices. -/
theorem guesser_role_flip (p1 p2 : Player) (ty : String)
    (w1 w2 : Option WordEntry) :
    (createMultiplayerRoom [p1, p2] ty).currentGuesser = 1
    ∧ (nextRoundReset (createMultiplayerRoom [p1, p2] ty) w1).1.currentGuesser = 2
    ∧ (nextRoundReset (nextRoundReset (createMultiplayerRoom [p1, p2] ty) w1).1
        w2).1.currentGuesser = 1 := by
  refine ⟨rfl, rfl, rfl⟩

/-- C8 (counterexample): `Math.random()` can return `0.5`, whose base-36
representation is `"0.i"`; the generated code is then `"I"`, of length 1,
not 6.  And there is no collision handling: with Bob's private room already
stored under `0ABCDE`, Alice's `create_private_room` drawing the same code
simply overwrites Bob's ticket instead of regenerating. -/
theorem room_code_collision_counterexample :
    generateRoomCode "0.i" = "I"
    ∧ (generateRoomCode "0.i").length = 1
    ∧ generateRoomCode "0.0abcdexyz" = "0ABCDE"
    ∧ (createPrivateRoom
        ⟨[("s1", ⟨"s1", "Alice"⟩)], [], [],
         [("0ABCDE", ⟨⟨"s2", "Bob"⟩, [⟨"s2", "Bob"⟩], "waiting", 0⟩)]⟩
        "s1" "0.0abcdexyz" 5).1.privateRooms
      = [("0ABCDE", ⟨⟨"s1", "Alice"⟩, [⟨"s1", "Alice"⟩], "waiting", 5⟩)] := by
  refine ⟨by decide, by decide, by decide, by decide⟩

/-- C8 (amended): the generated code is the uppercase image of at most six
characters of the random draw (exactly six only when the draw has at least
six fraction digits); its characters are uppercase alphanumerics whenever
the draw is a base-36 fraction; and `create_private_room` stores the ticket
under the code with no collision check — `Map.set` semantics, overwriting
any room already stored there. -/
theorem room_code_bounded_no_collision_check :
    (∀ randStr, (generateRoomCode randStr).length ≤ 6)
    ∧ (∀ randStr, (∀ ch ∈ randStr.data.drop 2, ch ∈ base36Chars) →
        ∀ ch ∈ (generateRoomCode randStr).data, ch ∈ upper36Chars)
    ∧ (∀ s sid u randStr now, lookupUser s sid = some u →
        (createPrivateRoom s sid randStr now).1.privateRooms
          = assocSet s.privateRooms (generateRoomCode randStr)
              ⟨u, [u], "waiting", now⟩
        ∧ (createPrivateRoom s sid randStr now).2
          = [Ev.privateRoomCreated (generateRoomCode randStr)]) := by
  refine ⟨?_, ?_, ?_⟩
  · intro randStr
    show (((randStr.data.drop 2).take 6).map Char.toUpper).length ≤ 6
    rw [List.length_map, List.length_take]
    exact Nat.min_le_left _ _
  · intro randStr hsub ch hch
    have hto : ∀ a ∈ base36Chars, Char.toUpper a ∈ upper36Chars := by decide
    obtain ⟨a, ha, rfl⟩ := List.mem_map.1 hch
    exact hto a (hsub a (List.take_subset _ _ ha))
  · intro s sid u randStr now h
    unfold createPrivateRoom
    rw [h]
    exact ⟨rfl, rfl⟩

/-- C8 (witness): the no-collision-check clause applied at the base
state. -/
theorem room_code_bounded_witness :
    (createPrivateRoom baseState "s1" "0.abcdef01" 0).1.privateRooms
      = assocSet baseState.privateRooms (generateRoomCode "0.abcdef01")
          ⟨⟨"s1", "Alice"⟩, [⟨"s1", "Alice"⟩], "waiting", 0⟩
    ∧ (createPrivateRoom baseState "s1" "0.abcdef01" 0).2
      = [Ev.privateRoomCreated (generateRoomCode "0.abcdef01")] :=
  room_code_bounded_no_collision_check.2.2 baseState "s1" ⟨"s1", "Alice"⟩
    "0.abcdef01" 0 rfl

theorem assocGet_assocSet {β : Type} (l : List (String × β)) (k : String)
    (v : β) : assocGet (assocSet l k v) k = some v := by
  induction l with
  | nil => simp [assocSet, assocGet, List.find?]
  | cons hd tl ih =>
    obtain ⟨a, b⟩ := hd
    by_cases hak : a = k
    · subst hak
      simp [assocSet, assocGet, List.find?]
    · simp only [assocSet, if_neg hak]
      show assocGet ((a, b) :: assocSet tl k v) k = some v
      simp only [assocGet, List.find?]
      rw [show ((a, b).1 == k) = false by simpa using hak]
      exact ih

/-- C9 (confirmed): `make_guess` dereferences `room.currentWord.word` with
no null guard, and the precondition is violable from the public interface:
when the requested tier is empty, `getRandomWord` returns null,
`start_training` registers the room with a null `currentWord`, and both the
guess handler and `giveBotClue` then hit the null dereference (modelled by
`none`, the thrown `TypeError`). -/
theorem null_word_reachable :
    (∀ r guess t, r.currentWord = none →
      strHasChar (jsTrim guess) spaceChar = false → makeGuess r guess t = none)
    ∧ (∀ vocab s sid user diff mw ri rc,
        lookupUser s sid = some user → vocab diff = [] →
        getRandomWord vocab (some diff) 0 ri = none
        ∧ lookupRoom (startTraining vocab s sid (some diff) mw ri rc).1
            ("BOT_" ++ generateRoomCode rc) = some (trainingRoom user diff mw none)
        ∧ (trainingRoom user diff mw none).currentWord = none
        ∧ makeGuess (trainingRoom user diff mw none) "mot" 0 = none
        ∧ giveBotClue (trainingRoom user diff mw none) 0 = none) := by
  constructor
  · intro r guess t hw hsp
    simp [makeGuess, hsp, hw]
  · intro vocab s sid user diff mw ri rc hu hv
    have hrand : getRandomWord vocab (some diff) 0 ri = none := by
      simp [getRandomWord, hv]
    refine ⟨hrand, ?_, rfl, rfl, rfl⟩
    unfold startTraining
    rw [hu]
    show lookupRoom
      { s with activeRooms :=
          (assocSet s.activeRooms ("BOT_" ++ generateRoomCode rc)
            (trainingRoom user diff mw (getRandomWord vocab (some diff) 0 ri))) }
      ("BOT_" ++ generateRoomCode rc) = some (trainingRoom user diff mw none)
    rw [hrand]
    exact assocGet_assocSet _ _ _

/-- C9 (witness): the null dereference reached from the empty vocabulary. -/
theorem null_word_reachable_witness :
    makeGuess (trainingRoom ⟨"s1", "Alice"⟩ "easy" none none) "mot" 0 = none
    ∧ lookupRoom
        (startTraining (fun _ => []) baseState "s1" (some "easy") none 0
          "0.abcdef01").1 ("BOT_" ++ generateRoomCode "0.abcdef01")
      = some (trainingRoom ⟨"s1", "Alice"⟩ "easy" none none) := by
  have h := null_word_reachable.2 (fun _ => []) baseState "s1" ⟨"s1", "Alice"⟩
    "easy" none 0 "0.abcdef01" rfl rfl
  exact ⟨null_word_reachable.1 (trainingRoom ⟨"s1", "Alice"⟩ "easy" none none)
    "mot" 0 rfl rfl, h.2.1⟩

/-- C10 (confirmed): multiplayer rooms are always created with
`maxWords = 4` and `wordsPlayed = 1` — `createMultiplayerRoom` takes no
client data at all — while the training room's `maxWords` is the client
number filtered through `|| 10`: absent/falsy gives 10, any truthy number
(positive, negative or fractional) is kept verbatim. -/
theorem room_word_quota :
    (∀ players ty, (createMultiplayerRoom players ty).maxWords = 4
      ∧ (createMultiplayerRoom players ty).wordsPlayed = 1)
    ∧ (∀ user diff mw w, (trainingRoom user diff mw w).maxWords = jsOrNum mw 10
      ∧ (trainingRoom user diff mw w).wordsPlayed = 1)
    ∧ jsOrNum none 10 = 10
    ∧ jsOrNum (some 0) 10 = 10
    ∧ (∀ q : ℚ, q ≠ 0 → jsOrNum (some q) 10 = q) := by
  refine ⟨fun _ _ => ⟨rfl, rfl⟩, fun _ _ _ _ => ⟨rfl, rfl⟩, rfl, by decide, ?_⟩
  intro q hq
  simp [jsOrNum, hq]

/-- C10 (witness): the truthy-value clause applied at the concrete client
value 7. -/
theorem room_word_quota_witness : jsOrNum (some 7) 10 = 7 :=
  room_word_quota.2.2.2.2 7 (by norm_num)
